import Mathlib

/-!
Verification development for the subclass-synthesis stage of the autocxx
conversion pipeline.  The definitions below are a shallow embedding of
`src/engine/src/conversion/analysis/fun/subclass.rs` and
`src/engine/src/conversion/apivec.rs`.  Auxiliary data types that the two
source files use but that are declared elsewhere in the repository
(`QualifiedName`, `ApiName`, `SubclassName`, `FuncToConvert`, the `syn`
argument/type shapes, …) are modelled from the specification, keeping
exactly the fields and operations the embedded code touches.
-/

/-- Modelled from the spec: a qualified name is a namespaced identifier for a
foreign-side entity (namespace segments plus a final item).  Mirrors
`QualifiedName` with `get_namespace`/`get_final_item`/`get_final_ident`. -/
structure QualifiedName where
  ns : List String
  finalItem : String
deriving DecidableEq

/-- Modelled from the spec: `QualifiedName::to_cpp_name` renders the namespaced
identifier in foreign (C++) syntax, joining segments with a scope separator. -/
def QualifiedName.to_cpp_name (q : QualifiedName) : String :=
  String.intercalate "::" (q.ns ++ [q.finalItem])

/-- Modelled from the spec: `ApiName` couples the unique qualified name of an
API entry with optional foreign-side display metadata (`cpp_name`). -/
structure ApiName where
  name : QualifiedName
  cpp_name : Option String
deriving DecidableEq

/-- `ApiName::new_in_root_namespace`: a name with no namespace segments. -/
def ApiName.new_in_root_namespace (id : String) : ApiName :=
  { name := { ns := [], finalItem := id }, cpp_name := none }

/-- `ApiName::new_with_cpp_name`. -/
def ApiName.new_with_cpp_name (ns : List String) (id : String)
    (cpp : Option String) : ApiName :=
  { name := { ns := ns, finalItem := id }, cpp_name := cpp }

/-- Modelled from the spec: `ApiName::cpp_name()` falls back to the final
segment of the qualified name when no display metadata was recorded. -/
def ApiName.cpp_name_value (n : ApiName) : String :=
  n.cpp_name.getD n.name.finalItem

/-- Modelled from the spec: a subclass descriptor identifies a requested
host-side subclass of a given superclass (`SubclassName`, a newtype over
`ApiName`; field `zero` stands for the Rust tuple field `.0`). -/
structure SubclassName where
  zero : ApiName
deriving DecidableEq

/-- Modelled from the spec: the subclass descriptor derives a deterministic
name for its foreign-side class type (`SubclassName::cpp`). -/
def SubclassName.cpp (s : SubclassName) : QualifiedName :=
  s.zero.name

/-- Modelled from the spec: the subclass descriptor derives a deterministic
name for its holder type, the opaque handle carrying host-side override
state (`SubclassName::holder`). -/
def SubclassName.holder (s : SubclassName) : String :=
  s.zero.name.finalItem ++ "Holder"

/-- Modelled from the spec: the subclass descriptor derives a deterministic
synthesized-constructor name (`SubclassName::synthesized_constructor`). -/
def SubclassName.synthesized_constructor (s : SubclassName) : QualifiedName :=
  { ns := s.zero.name.ns, finalItem := s.zero.name.finalItem ++ "_synthesized_constructor" }

/-- Modelled from the spec: the shapes of Rust-side types the embedded code
inspects (`syn::Type`): raw pointers (`Type::Ptr`, with its mutability flag),
plain paths (`Type::Path`), references, the `rust::Box` wrapper used for the
owned holder parameter, and an opaque catch-all for shapes the code never
inspects. -/
inductive RustType where
  | ptr (mutbl : Bool) (elem : RustType)
  | path (name : QualifiedName)
  | ref (elem : RustType)
  | rustBox (elem : RustType)
  | other (desc : String)
deriving DecidableEq

/-- Modelled from the spec: a function argument (`syn::FnArg`): either a
`self` receiver or a typed pattern (`FnArg::Typed`, pattern plus type). -/
inductive FnArg where
  | receiver
  | typed (pat : String) (ty : RustType)
deriving DecidableEq

/-- `Virtualness` of a function-to-convert. -/
inductive Virtualness where
  | None
  | Virtual
  | PureVirtual
deriving DecidableEq

/-- Foreign-language visibility (`CppVisibility`). -/
inductive CppVisibility where
  | Public
  | Protected
  | Private
deriving DecidableEq

/-- The synthetic-body kinds the embedded code produces (`CppFunctionKind`). -/
inductive CppFunctionKind where
  | Function
  | Method
  | ConstMethod
  | SynthesizedConstructor
deriving DecidableEq

/-- The synthetic-body payloads the embedded code produces
(`CppFunctionBody`): a call forwarded to a named function, or construction of
the superclass given its foreign name. -/
inductive CppFunctionBody where
  | FunctionCall (ns : List String) (name : String)
  | ConstructSuperclass (name : String)
deriving DecidableEq

/-- Modelled from the spec: reference-qualifier metadata carried through
unchanged by this stage (`References`); opaque to the embedded code. -/
abbrev References := List String

/-- Modelled from the spec: the not-yet-analyzed description of a callable
crossing the boundary (`FuncToConvert`), with exactly the fields the
embedded code reads or writes.  Fields whose payload the code never inspects
(documentation, visibility, trait association, special-member kind,
conversion detail) are carried as opaque strings. -/
structure FuncToConvert where
  ident : String
  doc_attr : Option String
  inputs : List FnArg
  output : Option RustType
  vis : String
  virtualness : Virtualness
  cpp_vis : CppVisibility
  special_member : Option String
  unused_template_param : Bool
  original_name : Option String
  references : References
  add_to_trait : Option String
  synthesized_this_type : Option QualifiedName
  self_ty : Option QualifiedName
  is_deleted : Bool
  synthetic_cpp : Option (CppFunctionBody × CppFunctionKind)
  cpp_only : Bool
deriving DecidableEq

/-- Receiver mutability of a method. -/
inductive ReceiverMutability where
  | const
  | mutable
deriving DecidableEq

/-- Modelled from the spec: upstream's classification of a method
(`MethodKind`): ordinary, constructor-like, static, virtual, or
pure-virtual; the virtual kinds carry the receiver mutability. -/
inductive MethodKind where
  | normal
  | constructor
  | static
  | virt (m : ReceiverMutability)
  | pureVirtual (m : ReceiverMutability)
deriving DecidableEq

/-- Modelled from the spec: upstream's classification of a callable
(`FnKind`): free function, method on a named type, or trait method. -/
inductive FnKind where
  | function
  | method (impl_for : QualifiedName) (k : MethodKind)
  | traitMethod (desc : String)
deriving DecidableEq

/-- Modelled from the spec: per-parameter analysis outcome: the conversion to
apply (opaque here) and whether that conversion requires unsafe handling. -/
structure ParamDetail where
  conversion : String
  requires_unsafe : Bool
deriving DecidableEq

/-- Modelled from the spec: the analyzed call signature (`FnAnalysis`) as far
as the embedded code consumes it: parameter list, per-parameter details
(parallel to the parameter list, receiver first), return type and return
conversion, final Rust-side name, and the upstream classification. -/
structure FnAnalysis where
  params : List FnArg
  param_details : List ParamDetail
  ret_type : Option RustType
  rust_name : String
  ret_conversion : Option String
  kind : FnKind
deriving DecidableEq

/-- The foreign-side trampoline description built by the call synthesizer
(`CppFunction`). -/
structure CppFunction where
  payload : CppFunctionBody
  wrapper_function_name : String
  original_cpp_name : String
  return_conversion : Option String
  argument_conversion : List String
  kind : CppFunctionKind
  pass_obs_field : Bool
  qualification : Option QualifiedName
deriving DecidableEq

/-- The final synthesized-subclass-function descriptor
(`RustSubclassFnDetails`). -/
structure RustSubclassFnDetails where
  params : List FnArg
  ret : Option RustType
  method_name : String
  cpp_impl : CppFunction
  superclass : QualifiedName
  receiver_mutability : ReceiverMutability
  dependency : Option QualifiedName
  requires_unsafe : Bool
  is_pure_virtual : Bool
deriving DecidableEq

/-- The API-entry variants the embedded code produces or inspects (`Api`):
declared subclasses, synthesized subclass functions, and an opaque variant
standing for every other artifact kind. -/
inductive Api where
  | Subclass (name : SubclassName) (superclass : QualifiedName)
  | RustSubclassFn (name : ApiName) (subclass : SubclassName)
      (details : RustSubclassFnDetails)
  | Other (name : ApiName)
deriving DecidableEq

/-- The `ApiName` of a synthesized-subclass-function entry, when the entry is
one. -/
def Api.api_name : Api → Option ApiName
  | Api.RustSubclassFn n _ _ => some n
  | _ => none

/-- The details record of a synthesized-subclass-function entry, when the
entry is one. -/
def Api.rust_subclass_fn_details : Api → Option RustSubclassFnDetails
  | Api.RustSubclassFn _ _ d => some d
  | _ => none

/-- `create_subclass_fn_wrapper` (subclass.rs, lines 52-77): rewrite a
superclass method's function-to-convert so its receiver is the subclass's
foreign-side type, renaming it to the method's final path segment. -/
def create_subclass_fn_wrapper (sub : SubclassName) (super_fn_name : QualifiedName)
    (f : FuncToConvert) : FuncToConvert :=
  let self_ty := some (SubclassName.cpp sub)
  { synthesized_this_type := self_ty
    self_ty := self_ty
    ident := super_fn_name.finalItem
    doc_attr := f.doc_attr
    inputs := f.inputs
    output := f.output
    vis := f.vis
    virtualness := Virtualness.None
    cpp_vis := CppVisibility.Public
    special_member := none
    unused_template_param := f.unused_template_param
    original_name := none
    references := f.references
    add_to_trait := f.add_to_trait
    is_deleted := f.is_deleted
    synthetic_cpp := none
    cpp_only := false }

/-- The holder-reference parameter the call synthesizer prepends
(subclass.rs, lines 94-96: the quoted argument `me: & holder_name`). -/
def holder_ref_param (sub : SubclassName) : FnArg :=
  FnArg.typed "me" (RustType.ref (RustType.path { ns := [], finalItem := SubclassName.holder sub }))

/-- `create_subclass_function` (subclass.rs, lines 79-137): build the final
synthesized-subclass-function API entry from the analyzed signature. -/
def create_subclass_function (sub : SubclassName) (analysis : FnAnalysis)
    (name : ApiName) ( receiver_mutability : ReceiverMutability)
    (superclass : QualifiedName) (dependency : Option QualifiedName) : Api :=
  let cpp := SubclassName.cpp sub
  let rust_call_name := sub.zero.name.finalItem ++ "_" ++ name.name.finalItem
  let params := holder_ref_param sub :: analysis.params.drop 1
  let kind :=
    match receiver_mutability with
    | ReceiverMutability.mutable => CppFunctionKind.Method
    | ReceiverMutability.const => CppFunctionKind.ConstMethod
  Api.RustSubclassFn (ApiName.new_in_root_namespace rust_call_name) sub
    { params := params
      ret := analysis.ret_type
      method_name := analysis.rust_name
      cpp_impl :=
        { payload := CppFunctionBody.FunctionCall [] rust_call_name
          wrapper_function_name := name.name.finalItem
          original_cpp_name := ApiName.cpp_name_value name
          return_conversion := analysis.ret_conversion
          argument_conversion := (analysis.param_details.drop 1).map ParamDetail.conversion
          kind := kind
          pass_obs_field := true
          qualification := some cpp }
      superclass := superclass
      receiver_mutability := receiver_mutability
      dependency := dependency
      requires_unsafe := analysis.param_details.any (fun pd => ParamDetail.requires_unsafe pd)
      is_pure_virtual :=
        match analysis.kind with
        | FnKind.method _ (MethodKind.pureVirtual _) => true
        | _ => false }

/-- The owned-holder parameter the constructor synthesizer inserts
(subclass.rs, lines 159-161: the quoted argument `peer: rust::Box<holder>`). -/
def boxed_holder_param (sub : SubclassName) : FnArg :=
  FnArg.typed "peer" (RustType.rustBox (RustType.path { ns := [], finalItem := SubclassName.holder sub }))

/-- `create_subclass_constructor` (subclass.rs, lines 139-227): produce the
pair (actual foreign-only constructor, exposed wrapper) for a subclass.  The
source panics when the first input is absent or is not a typed raw-pointer
parameter; the panic is embedded as `Except.error` with the panic message. -/
def create_subclass_constructor (sub : SubclassName) (sup : QualifiedName)
    (f : FuncToConvert) : Except String (List (FuncToConvert × ApiName)) :=
  -- the source's `holder` binding is consumed through `boxed_holder_param`
  let cpp := SubclassName.cpp sub
  match f.inputs with
  | FnArg.typed pat ty :: rest =>
    match ty with
    | RustType.ptr mutbl _ =>
      -- lines 148-156: the pointee of the first (self) parameter is rewritten
      -- to the subclass's foreign-side type
      let self_param := FnArg.typed pat (RustType.ptr mutbl (RustType.path cpp))
      let constructor_inputs := boxed_holder_param sub :: rest
      let wrapper_inputs := self_param :: constructor_inputs
      let subclass_constructor_qn := SubclassName.synthesized_constructor sub
      let actual_constructor_api_name :=
        ApiName.new_with_cpp_name subclass_constructor_qn.ns
          subclass_constructor_qn.finalItem (some cpp.finalItem)
      let actual_constructor :=
        { f with
          inputs := constructor_inputs
          ident := cpp.finalItem
          synthesized_this_type := some cpp
          self_ty := some cpp
          synthetic_cpp := some (CppFunctionBody.ConstructSuperclass (QualifiedName.to_cpp_name sup),
            CppFunctionKind.SynthesizedConstructor)
          original_name := some cpp.finalItem
          cpp_only := true }
      let subclass_constructor_name := cpp.finalItem ++ "_" ++ cpp.finalItem
      let wrapper : FuncToConvert :=
        { ident := subclass_constructor_name
          doc_attr := f.doc_attr
          inputs := wrapper_inputs
          output := f.output
          vis := f.vis
          virtualness := Virtualness.None
          cpp_vis := CppVisibility.Public
          special_member := f.special_member
          original_name := none
          unused_template_param := f.unused_template_param
          references := f.references
          synthesized_this_type := some cpp
          self_ty := some cpp
          add_to_trait := none
          is_deleted := f.is_deleted
          synthetic_cpp := none
          cpp_only := false }
      let wrapper_name :=
        ApiName.new_with_cpp_name [] subclass_constructor_name (some cpp.finalItem)
      Except.ok [(actual_constructor, actual_constructor_api_name), (wrapper, wrapper_name)]
    | _ => Except.error "Unexpected self type parameter when creating subclass constructor"
  | _ => Except.error "Unexpected self type parameter when creating subclass constructor"

/-- Association-list model of the `HashMap` built by the index builder; keys
are unique, insertion order of keys is preserved. -/
abbrev SubclassMap := List (QualifiedName × List SubclassName)

/-- `HashMap::get` on the association-list model. -/
def map_get (m : SubclassMap) (k : QualifiedName) : Option (List SubclassName) :=
  match m with
  | [] => none
  | (k1, vs) :: rest => if k1 = k then some vs else map_get rest k

/-- `HashMap::entry(k).or_default().push(v)` on the association-list model:
append `v` to the list at `k`, creating the key when absent. -/
def entry_push (m : SubclassMap) (k : QualifiedName) (v : SubclassName) : SubclassMap :=
  match m with
  | [] => [(k, [v])]
  | (k1, vs) :: rest =>
    if k1 = k then (k1, vs ++ [v]) :: rest else (k1, vs) :: entry_push rest k v

/-- One iteration of the loop in `subclasses_by_superclass` (subclass.rs,
lines 41-48): declared-subclass entries are recorded, others skipped. -/
def subclass_step (m : SubclassMap) (api : Api) : SubclassMap :=
  match api with
  | Api.Subclass name superclass => entry_push m superclass name
  | _ => m

/-- `subclasses_by_superclass` (subclass.rs, lines 36-50): group declared
subclasses by the superclass they extend. -/
def subclasses_by_superclass (apis : List Api) : SubclassMap :=
  apis.foldl subclass_step []

/-- The specification's description of what the index builder returns for a
superclass: the declared subclasses naming it, in declaration order. -/
def declared_subclasses (apis : List Api) (s : QualifiedName) : List SubclassName :=
  apis.filterMap (fun api =>
    match api with
    | Api.Subclass name superclass => if superclass = s then some name else none
    | _ => none)

/-- `ApiVec` (apivec.rs): the ordered API container, generic over entries
(the analysis-phase parameter only tags the entry type). -/
structure ApiVec (α : Type) where
  apis : List α
deriving DecidableEq

/-- `ApiVec::push` (apivec.rs, lines 24-26). -/
def ApiVec.push (v : ApiVec α) (api : α) : ApiVec α :=
  { apis := v.apis ++ [api] }

/-- `ApiVec::extend` (apivec.rs, lines 36-41): repeated `push` over the
iterator's items. -/
def ApiVec.extend (v : ApiVec α) (it : List α) : ApiVec α :=
  it.foldl ApiVec.push v

/-- `ApiVec::append` (apivec.rs, lines 32-34): extend `self` with the items
drained out of `more`; returns the updated `self` and the drained `more`. -/
def ApiVec.append (v more : ApiVec α) : ApiVec α × ApiVec α :=
  (v.extend more.apis, { apis := [] })

/-- `ApiVec::is_empty` (apivec.rs, lines 51-53). -/
def ApiVec.is_empty (v : ApiVec α) : Bool :=
  v.apis.isEmpty

/-! Concrete inputs used to instantiate the theorems below. -/

/-- A concrete superclass qualified name. -/
def supEx : QualifiedName := { ns := [], finalItem := "Super" }

/-- A concrete subclass descriptor. -/
def subEx : SubclassName := { zero := ApiName.new_in_root_namespace "MySub" }

/-- A concrete method API name. -/
def nameEx : ApiName := ApiName.new_in_root_namespace "do_thing"

/-- A concrete virtual-method function-to-convert whose foreign-side
visibility is protected. -/
def funEx : FuncToConvert :=
  { ident := "do_thing"
    doc_attr := some "doc"
    inputs := [FnArg.typed "this" (RustType.ptr true (RustType.path supEx))]
    output := none
    vis := "pub"
    virtualness := Virtualness.Virtual
    cpp_vis := CppVisibility.Protected
    special_member := none
    unused_template_param := false
    original_name := none
    references := []
    add_to_trait := none
    synthesized_this_type := none
    self_ty := some supEx
    is_deleted := false
    synthetic_cpp := none
    cpp_only := false }

/-- A concrete analyzed signature: one parameter (the receiver), whose
conversion is the only one marked as requiring unsafe handling. -/
def analysisEx : FnAnalysis :=
  { params := [FnArg.receiver]
    param_details := [{ conversion := "c0", requires_unsafe := true }]
    ret_type := none
    rust_name := "do_thing"
    ret_conversion := none
    kind := FnKind.method supEx (MethodKind.virt ReceiverMutability.const) }

/-! Theorems settling the claims. -/

/-- Claim C1, counterexample: at a concrete signature whose receiver is the
only parameter and whose receiver conversion requires unsafe handling, the
synthesized entry's requires-unsafe flag is true even though no non-receiver
parameter requires unsafe conversion — so the flag is not the OR over the
parameters excluding the receiver. -/
theorem c1_unsafe_counterexample :
    Option.map (fun d => RustSubclassFnDetails.requires_unsafe d)
      (Api.rust_subclass_fn_details
        (create_subclass_function subEx analysisEx nameEx ReceiverMutability.const supEx none))
      = some true ∧
    List.any (List.drop 1 analysisEx.param_details)
      (fun pd => ParamDetail.requires_unsafe pd) = false := by
  constructor <;> rfl

/-- Claim C1, amended: the synthesized entry's requires-unsafe flag is true
iff at least one parameter of the analyzed signature — the original receiver's
conversion detail included — is marked as requiring unsafe conversion. -/
theorem c1_unsafe_or_reduction (sub : SubclassName) (analysis : FnAnalysis)
    (name : ApiName) (rm : ReceiverMutability) (superclass : QualifiedName)
    (dependency : Option QualifiedName) :
    Option.map (fun d => RustSubclassFnDetails.requires_unsafe d)
      (Api.rust_subclass_fn_details
        (create_subclass_function sub analysis name rm superclass dependency))
      = some true ↔
    ∃ pd ∈ analysis.param_details, ParamDetail.requires_unsafe pd = true := by
  simp [create_subclass_function, Api.rust_subclass_fn_details, List.any_eq_true]

/-- Claim C2, counterexample: the method-wrapper synthesizer does not copy
the foreign-side visibility — on an original whose foreign-side visibility is
protected, the wrapper's is public, so the wrapper differs from the original
in a field outside the claim's allowed list. -/
theorem c2_frame_counterexample :
    FuncToConvert.cpp_vis (create_subclass_fn_wrapper subEx supEx funEx) ≠
      FuncToConvert.cpp_vis funEx := by
  decide

/-- Claim C2, amended: the wrapper differs from the original only in:
receiver/self type and synthesized this-type (set to the subclass's
foreign-side type), identifier (the method name's final segment), virtualness
(cleared), foreign-only (false), foreign-side visibility (forced public),
special-member classification (cleared), original-name metadata (cleared),
and synthetic-body tag (cleared); documentation, parameter list, return type,
host-side visibility, unused-template flag, reference qualifiers,
trait-association metadata, and deletedness equal the original's values. -/
theorem c2_fn_wrapper_frame (sub : SubclassName) (super_fn_name : QualifiedName)
    (f : FuncToConvert) :
    (create_subclass_fn_wrapper sub super_fn_name f).synthesized_this_type
        = some (SubclassName.cpp sub) ∧
    (create_subclass_fn_wrapper sub super_fn_name f).self_ty = some (SubclassName.cpp sub) ∧
    (create_subclass_fn_wrapper sub super_fn_name f).ident = super_fn_name.finalItem ∧
    (create_subclass_fn_wrapper sub super_fn_name f).virtualness = Virtualness.None ∧
    (create_subclass_fn_wrapper sub super_fn_name f).cpp_only = false ∧
    (create_subclass_fn_wrapper sub super_fn_name f).cpp_vis = CppVisibility.Public ∧
    (create_subclass_fn_wrapper sub super_fn_name f).special_member = none ∧
    (create_subclass_fn_wrapper sub super_fn_name f).original_name = none ∧
    (create_subclass_fn_wrapper sub super_fn_name f).synthetic_cpp = none ∧
    (create_subclass_fn_wrapper sub super_fn_name f).doc_attr = f.doc_attr ∧
    (create_subclass_fn_wrapper sub super_fn_name f).inputs = f.inputs ∧
    (create_subclass_fn_wrapper sub super_fn_name f).output = f.output ∧
    (create_subclass_fn_wrapper sub super_fn_name f).vis = f.vis ∧
    (create_subclass_fn_wrapper sub super_fn_name f).unused_template_param
        = f.unused_template_param ∧
    (create_subclass_fn_wrapper sub super_fn_name f).references = f.references ∧
    (create_subclass_fn_wrapper sub super_fn_name f).add_to_trait = f.add_to_trait ∧
    (create_subclass_fn_wrapper sub super_fn_name f).is_deleted = f.is_deleted := by
  refine ⟨rfl, rfl, rfl, rfl, rfl, rfl, rfl, rfl, rfl, rfl, rfl, rfl, rfl, rfl, rfl, rfl, rfl⟩

/-- Claim C6: the trampoline's qualification matches the original receiver's
mutability exactly — a mutable receiver yields a mutating foreign-side
method, a const receiver yields a const-qualified one. -/
theorem c6_receiver_mutability (sub : SubclassName) (analysis : FnAnalysis)
    (name : ApiName) (superclass : QualifiedName) (dependency : Option QualifiedName) :
    Option.map (fun d => CppFunction.kind (RustSubclassFnDetails.cpp_impl d))
      (Api.rust_subclass_fn_details
        (create_subclass_function sub analysis name ReceiverMutability.mutable
          superclass dependency))
      = some CppFunctionKind.Method ∧
    Option.map (fun d => CppFunction.kind (RustSubclassFnDetails.cpp_impl d))
      (Api.rust_subclass_fn_details
        (create_subclass_function sub analysis name ReceiverMutability.const
          superclass dependency))
      = some CppFunctionKind.ConstMethod := by
  constructor <;> rfl

/-- Claim C7: the is-pure-virtual flag on the synthesized entry is true iff
the analyzed kind classifies the original as a pure-virtual method; in every
other classification (plain virtual methods included) it is false. -/
theorem c7_pure_virtual_flag (sub : SubclassName) (analysis : FnAnalysis)
    (name : ApiName) (rm : ReceiverMutability) (superclass : QualifiedName)
    (dependency : Option QualifiedName) :
    (Option.map (fun d => RustSubclassFnDetails.is_pure_virtual d)
      (Api.rust_subclass_fn_details
        (create_subclass_function sub analysis name rm superclass dependency))
      = some true) ↔
    ∃ q m, analysis.kind = FnKind.method q (MethodKind.pureVirtual m) := by
  simp only [create_subclass_function, Api.rust_subclass_fn_details, Option.map,
    Option.some.injEq]
  cases h : analysis.kind with
  | function => simp [h]
  | method q k => cases k <;> simp
  | traitMethod d => simp

/-- `ApiVec.extend` appends the iterated items behind the existing entries,
in order. -/
theorem ApiVec.extend_apis (v : ApiVec α) (l : List α) :
    (ApiVec.extend v l).apis = v.apis ++ l := by
  induction l generalizing v with
  | nil => simp [ApiVec.extend]
  | cons x xs ih =>
    show (List.foldl ApiVec.push (ApiVec.push v x) xs).apis = v.apis ++ x :: xs
    rw [show List.foldl ApiVec.push (ApiVec.push v x) xs = ApiVec.extend (ApiVec.push v x) xs from rfl,
      ih, ApiVec.push]
    simp

/-- Claim C10: `append` leaves the first container holding its previous
entries followed by the second's previous entries, both in order, and leaves
the second container empty. -/
theorem c10_apivec_append (α : Type) (a b : ApiVec α) :
    (ApiVec.append a b).1.apis = a.apis ++ b.apis ∧
    ApiVec.is_empty (ApiVec.append a b).2 = true := by
  refine ⟨ApiVec.extend_apis a b.apis, rfl⟩

/-- Whether an `Except` result is a success. -/
def except_ok (e : Except String α) : Bool :=
  match e with
  | Except.ok _ => true
  | Except.error _ => false

/-- The shape the constructor synthesizer actually checks on the first input:
present, typed, and of raw-pointer type (any pointee). -/
def first_input_is_typed_ptr : List FnArg → Bool
  | FnArg.typed _ (RustType.ptr _ _) :: _ => true
  | _ => false

/-- A constructor-like entry whose first parameter is a pointer to a type
other than the superclass. -/
def funOtherPtr : FuncToConvert :=
  { funEx with
    inputs := [FnArg.typed "this" (RustType.ptr true (RustType.path { ns := [], finalItem := "Other" }))] }

/-- Claim C3, counterexample: on a constructor whose first parameter is a
pointer to a type other than the superclass, the synthesizer does not panic —
it succeeds — although the claim requires the fatal failure whenever the
first parameter is not a pointer to the superclass type. -/
theorem c3_panic_counterexample :
    except_ok (create_subclass_constructor subEx supEx funOtherPtr) = true ∧
    funOtherPtr.inputs =
      [FnArg.typed "this" (RustType.ptr true (RustType.path { ns := [], finalItem := "Other" }))] ∧
    ({ ns := [], finalItem := "Other" } : QualifiedName) ≠ supEx := by
  refine ⟨by decide, rfl, by decide⟩

/-- Claim C3, amended: the constructor synthesizer panics exactly when the
first input parameter is absent, is a receiver, or is typed with anything
other than a raw pointer; the pointee is never compared against the
superclass type, and when the first parameter is a typed raw pointer (to any
pointee) no panic occurs. -/
theorem c3_panic_condition (sub : SubclassName) (sup : QualifiedName) (f : FuncToConvert) :
    except_ok (create_subclass_constructor sub sup f) = first_input_is_typed_ptr f.inputs := by
  rcases hf : f.inputs with _ | ⟨arg, rest⟩
  · simp [create_subclass_constructor, first_input_is_typed_ptr, hf, except_ok]
  · cases arg with
    | receiver =>
      simp [create_subclass_constructor, first_input_is_typed_ptr, hf, except_ok]
    | typed pat ty =>
      cases ty <;>
        simp [create_subclass_constructor, first_input_is_typed_ptr, hf, except_ok]

/-- Left and right parts around a separator are determined when the left
parts do not contain the separator character. -/
theorem append_sep_inj (a1 : List Char) (b1 : List Char) (a2 : List Char) (b2 : List Char)
    (h1 : '_' ∉ a1) (h2 : '_' ∉ a2)
    (h : a1 ++ '_' :: b1 = a2 ++ '_' :: b2) : a1 = a2 ∧ b1 = b2 := by
  induction a1 generalizing a2 with
  | nil =>
    cases a2 with
    | nil => simpa using h
    | cons c cs =>
      exfalso
      simp only [List.nil_append, List.cons_append, List.cons.injEq] at h
      exact h2 (by simp [← h.1])
  | cons c cs ih =>
    cases a2 with
    | nil =>
      exfalso
      simp only [List.nil_append, List.cons_append, List.cons.injEq] at h
      exact h1 (by simp [h.1])
    | cons d ds =>
      simp only [List.cons_append, List.cons.injEq] at h
      obtain ⟨rfl, htail⟩ := h
      have h1t : '_' ∉ cs := fun hm => h1 (List.mem_cons_of_mem _ hm)
      have h2t : '_' ∉ ds := fun hm => h2 (List.mem_cons_of_mem _ hm)
      obtain ⟨he, hb⟩ := ih ds h1t h2t htail
      exact ⟨by rw [he], hb⟩

/-- The string form of `append_sep_inj`: `a ++ "_" ++ b` determines `a` and
`b` when neither candidate `a` contains an underscore. -/
theorem string_underscore_inj (a1 : String) (b1 : String) (a2 : String) (b2 : String)
    (h1 : '_' ∉ a1.data) (h2 : '_' ∉ a2.data)
    (h : a1 ++ "_" ++ b1 = a2 ++ "_" ++ b2) : a1 = a2 ∧ b1 = b2 := by
  have hd : a1.data ++ '_' :: b1.data = a2.data ++ '_' :: b2.data := by
    have := congrArg String.data h
    simpa [String.data_append] using this
  obtain ⟨ha, hb⟩ := append_sep_inj a1.data b1.data a2.data b2.data h1 h2 hd
  constructor
  · cases a1; cases a2; exact congrArg String.mk ha
  · cases b1; cases b2; exact congrArg String.mk hb

/-- Claim C4, counterexample to uniqueness: the distinct pairs
(subclass `A_B`, method `C`) and (subclass `A`, method `B_C`) — neither
subclass declaring the same overridden method twice — receive the same
synthesized cross-boundary call name `A_B_C`. -/
theorem c4_name_collision_counterexample :
    (({ zero := ApiName.new_in_root_namespace "A_B" } : SubclassName),
        ApiName.new_in_root_namespace "C") ≠
      (({ zero := ApiName.new_in_root_namespace "A" } : SubclassName),
        ApiName.new_in_root_namespace "B_C") ∧
    Api.api_name
        (create_subclass_function { zero := ApiName.new_in_root_namespace "A_B" }
          analysisEx (ApiName.new_in_root_namespace "C") ReceiverMutability.const supEx none) =
      Api.api_name
        (create_subclass_function { zero := ApiName.new_in_root_namespace "A" }
          analysisEx (ApiName.new_in_root_namespace "B_C") ReceiverMutability.const supEx none) := by
  refine ⟨by decide, rfl⟩

/-- Claim C4, amended: the synthesized cross-boundary call name is always
the subclass name's final segment, an underscore, and the method name's final
segment; such names are pairwise distinct across (subclass, method) pairs
whose (subclass final segment, method final segment) pairs differ, provided
the subclass final segments contain no underscore. -/
theorem c4_call_name (s1 s2 : SubclassName) (n1 n2 : ApiName) (a1 a2 : FnAnalysis)
    (rm1 rm2 : ReceiverMutability) (sup1 sup2 : QualifiedName)
    (dep1 dep2 : Option QualifiedName) :
    Api.api_name (create_subclass_function s1 a1 n1 rm1 sup1 dep1) =
      some (ApiName.new_in_root_namespace
        (s1.zero.name.finalItem ++ "_" ++ n1.name.finalItem)) ∧
    ('_' ∉ s1.zero.name.finalItem.data → '_' ∉ s2.zero.name.finalItem.data →
      (s1.zero.name.finalItem, n1.name.finalItem) ≠
        (s2.zero.name.finalItem, n2.name.finalItem) →
      Api.api_name (create_subclass_function s1 a1 n1 rm1 sup1 dep1) ≠
        Api.api_name (create_subclass_function s2 a2 n2 rm2 sup2 dep2)) := by
  refine ⟨rfl, fun hu1 hu2 hne heq => ?_⟩
  simp only [create_subclass_function, Api.api_name, ApiName.new_in_root_namespace,
    Option.some.injEq, ApiName.mk.injEq, QualifiedName.mk.injEq, and_true, true_and] at heq
  obtain ⟨hs, hn⟩ := string_underscore_inj _ _ _ _ hu1 hu2 heq
  exact hne (by rw [hs, hn])

/-- Witness for claim C4's theorem at concrete inputs: subclasses `A` and
`B`, both overriding method `C`; their call names are `A_C` and `B_C` and
differ. -/
theorem c4_call_name_witness :
    Api.api_name
        (create_subclass_function { zero := ApiName.new_in_root_namespace "A" }
          analysisEx (ApiName.new_in_root_namespace "C") ReceiverMutability.const supEx none) =
      some (ApiName.new_in_root_namespace ("A" ++ "_" ++ "C")) ∧
    Api.api_name
        (create_subclass_function { zero := ApiName.new_in_root_namespace "A" }
          analysisEx (ApiName.new_in_root_namespace "C") ReceiverMutability.const supEx none) ≠
      Api.api_name
        (create_subclass_function { zero := ApiName.new_in_root_namespace "B" }
          analysisEx (ApiName.new_in_root_namespace "C") ReceiverMutability.const supEx none) := by
  have h := c4_call_name { zero := ApiName.new_in_root_namespace "A" }
    { zero := ApiName.new_in_root_namespace "B" }
    (ApiName.new_in_root_namespace "C") (ApiName.new_in_root_namespace "C")
    analysisEx analysisEx ReceiverMutability.const ReceiverMutability.const
    supEx supEx none none
  exact ⟨h.1, h.2 (by decide) (by decide) (by decide)⟩

/-- Claim C5: with a well-shaped (typed raw-pointer) first parameter, the
constructor synthesizer emits exactly two entries in fixed order — the actual
constructor (foreign-only) then the wrapper (not foreign-only); the wrapper's
inputs are the (pointee-rewritten) self parameter, then the owned holder
parameter, then the original constructor's remaining parameters in order; and
the wrapper's identifier is the subclass's final name doubled with an
underscore. -/
theorem c5_constructor_pair (sub : SubclassName) (sup : QualifiedName)
    (f : FuncToConvert) (pat : String) (m : Bool) (e : RustType) (rest : List FnArg)
    (h : f.inputs = FnArg.typed pat (RustType.ptr m e) :: rest) :
    ∃ actual an wrapper wn,
      create_subclass_constructor sub sup f = Except.ok [(actual, an), (wrapper, wn)] ∧
      FuncToConvert.cpp_only actual = true ∧
      FuncToConvert.cpp_only wrapper = false ∧
      FuncToConvert.inputs wrapper =
        FnArg.typed pat (RustType.ptr m (RustType.path (SubclassName.cpp sub)))
          :: boxed_holder_param sub :: rest ∧
      FuncToConvert.ident wrapper =
        (SubclassName.cpp sub).finalItem ++ "_" ++ (SubclassName.cpp sub).finalItem := by
  simp only [create_subclass_constructor, h]
  exact ⟨_, _, _, _, rfl, rfl, rfl, rfl, rfl⟩

/-- Witness for claim C5's theorem at a concrete constructor with one
pointer-typed self parameter. -/
theorem c5_constructor_pair_witness :
    ∃ actual an wrapper wn,
      create_subclass_constructor subEx supEx funEx = Except.ok [(actual, an), (wrapper, wn)] ∧
      FuncToConvert.cpp_only actual = true ∧
      FuncToConvert.cpp_only wrapper = false ∧
      FuncToConvert.inputs wrapper =
        FnArg.typed "this" (RustType.ptr true (RustType.path (SubclassName.cpp subEx)))
          :: boxed_holder_param subEx :: [] ∧
      FuncToConvert.ident wrapper =
        (SubclassName.cpp subEx).finalItem ++ "_" ++ (SubclassName.cpp subEx).finalItem :=
  c5_constructor_pair subEx supEx funEx "this" true (RustType.path supEx) [] rfl

/-- Claim C8: when the analyzed signature has at least one parameter, the
synthesized entry's parameter list starts with a reference to the subclass's
holder type followed by exactly the analyzed parameters after the first, in
order; the dropped receiver is not among them. -/
theorem c8_param_rewrite (sub : SubclassName) (analysis : FnAnalysis)
    (name : ApiName) (rm : ReceiverMutability) (superclass : QualifiedName)
    (dependency : Option QualifiedName) (p0 : FnArg) (rest : List FnArg)
    (h : analysis.params = p0 :: rest) (h1 : p0 ∉ rest)
    (h2 : p0 ≠ holder_ref_param sub) :
    Option.map (fun d => RustSubclassFnDetails.params d)
      (Api.rust_subclass_fn_details
        (create_subclass_function sub analysis name rm superclass dependency))
      = some (holder_ref_param sub :: rest) ∧
    ∀ d, Api.rust_subclass_fn_details
        (create_subclass_function sub analysis name rm superclass dependency) = some d →
      p0 ∉ RustSubclassFnDetails.params d := by
  constructor
  · simp [create_subclass_function, Api.rust_subclass_fn_details, h]
  · intro d hd
    have hp : RustSubclassFnDetails.params d = holder_ref_param sub :: rest := by
      simp only [create_subclass_function, Api.rust_subclass_fn_details,
        Option.some.injEq] at hd
      rw [← hd, h]
      simp
    rw [hp]
    simp [h1, h2]

/-- Witness for claim C8's theorem at a concrete signature whose only
parameter is the receiver. -/
theorem c8_param_rewrite_witness :
    Option.map (fun d => RustSubclassFnDetails.params d)
      (Api.rust_subclass_fn_details
        (create_subclass_function subEx analysisEx nameEx ReceiverMutability.const supEx none))
      = some (holder_ref_param subEx :: []) ∧
    ∀ d, Api.rust_subclass_fn_details
        (create_subclass_function subEx analysisEx nameEx ReceiverMutability.const supEx none)
        = some d →
      FnArg.receiver ∉ RustSubclassFnDetails.params d :=
  c8_param_rewrite subEx analysisEx nameEx ReceiverMutability.const supEx none
    FnArg.receiver [] rfl (by decide) (by decide)


/-- Looking up the pushed key after `entry_push` yields the previous value
(empty when the key was absent) with the new element appended. -/
theorem map_get_entry_push_eq (m : SubclassMap) (k : QualifiedName) (v : SubclassName) :
    map_get (entry_push m k v) k = some ((map_get m k).getD [] ++ [v]) := by
  induction m with
  | nil => simp [entry_push, map_get]
  | cons p rest ih =>
    obtain ⟨k1, vs⟩ := p
    by_cases hk : k1 = k
    · subst hk
      simp [entry_push, map_get]
    · simp [entry_push, map_get, hk, ih]

/-- Looking up any other key after `entry_push` is unchanged. -/
theorem map_get_entry_push_ne (m : SubclassMap) (k k2 : QualifiedName) (v : SubclassName)
    (h : k ≠ k2) : map_get (entry_push m k v) k2 = map_get m k2 := by
  induction m with
  | nil => simp [entry_push, map_get, h]
  | cons p rest ih =>
    obtain ⟨k1, vs⟩ := p
    by_cases hk : k1 = k
    · subst hk
      simp [entry_push, map_get, h]
    · simp [entry_push, map_get, hk, ih]

/-- Invariant of the index builder's loop: folding the remaining entries over
any accumulator extends each key's list by the subclasses declared for it, in
declaration order, creating keys only when at least one subclass declares
them. -/
theorem foldl_subclass_step (apis : List Api) (m : SubclassMap) (s : QualifiedName) :
    map_get (apis.foldl subclass_step m) s =
      if declared_subclasses apis s = [] then map_get m s
      else some ((map_get m s).getD [] ++ declared_subclasses apis s) := by
  induction apis generalizing m with
  | nil => simp [declared_subclasses]
  | cons a rest ih =>
    cases a with
    | Subclass n sup =>
      by_cases hs : sup = s
      · subst hs
        have hd : declared_subclasses (Api.Subclass n sup :: rest) sup =
            n :: declared_subclasses rest sup := by
          simp [declared_subclasses]
        rw [List.foldl_cons]
        show map_get (List.foldl subclass_step (entry_push m sup n) rest) sup = _
        rw [ih, hd, map_get_entry_push_eq]
        by_cases hrest : declared_subclasses rest sup = []
        · simp [hrest]
        · simp [hrest]
      · have hd : declared_subclasses (Api.Subclass n sup :: rest) s =
            declared_subclasses rest s := by
          simp [declared_subclasses, hs]
        rw [List.foldl_cons]
        show map_get (List.foldl subclass_step (entry_push m sup n) rest) s = _
        rw [ih, hd, map_get_entry_push_ne m sup s n hs]
    | RustSubclassFn nm sb d =>
      have hd : declared_subclasses (Api.RustSubclassFn nm sb d :: rest) s =
          declared_subclasses rest s := by
        simp [declared_subclasses]
      rw [List.foldl_cons]
      show map_get (List.foldl subclass_step m rest) s = _
      rw [ih, hd]
    | Other nm =>
      have hd : declared_subclasses (Api.Other nm :: rest) s =
          declared_subclasses rest s := by
        simp [declared_subclasses]
      rw [List.foldl_cons]
      show map_get (List.foldl subclass_step m rest) s = _
      rw [ih, hd]

/-- Claim C9: a superclass is a key of the index builder's map iff at least
one declared-subclass entry names it, and its value is exactly the sequence
of subclass descriptors declaring it, in declaration order, duplicates
retained. -/
theorem c9_subclasses_by_superclass (apis : List Api) (s : QualifiedName) :
    map_get (subclasses_by_superclass apis) s =
      if declared_subclasses apis s = [] then none
      else some (declared_subclasses apis s) := by
  have h := foldl_subclass_step apis [] s
  simpa [subclasses_by_superclass, map_get] using h
